import Mathlib

/-!
Shallow embedding of `src/index.js`, a browser MQTT 3.1.1 client speaking over
a WebSocket.  Bytes are modelled as `Nat`.  JavaScript `Uint8Array` stores
write their value modulo 256 and silently drop writes at an out-of-range
index; `List.set` is the identity out of range, which matches.  A JavaScript
read `data[p]` past the end of a typed array yields `undefined`, which every
bitwise operator coerces to 0; reads are therefore modelled with `List.getD`
(default 0) or by the empty-list case of a structural recursion.
-/

namespace MqttWs

/-- The remaining-length encoder: the do-while loop of `buildPacket`
(src/index.js:35-42).  Each iteration emits `remainLen % 128`, ORs in the
continuation bit `0x80` when `remainLen >> 7` is still positive (since
`remainLen % 128 < 128`, `byte |= 0x80` is the same as `byte + 128`), and
continues with the shifted value.  The loop runs at most `n` times, so a
fuel argument of `n` makes the recursion structural; fuel 0 forces `n = 0`
under the invariant `n ≤ fuel` and emits the final byte. -/
def encodeRemainingLengthFuel : Nat → Nat → List Nat
  | 0, n => [n % 128]
  | fuel + 1, n =>
    if n >>> 7 > 0 then (n % 128 + 128) :: encodeRemainingLengthFuel fuel (n >>> 7)
    else [n % 128]

/-- The remaining-length byte sequence written by `buildPacket`
(src/index.js:35-42). -/
def encodeRemainingLength (n : Nat) : List Nat :=
  encodeRemainingLengthFuel n n

/-- The remaining-length decoder loop of `Client._receivePacket`
(src/index.js:112-119): read `byte = data[p++]`, accumulate
`(byte & 0x7f) * m`, multiply `m` by 128, repeat while `byte & 0x80` is set.
The first argument is the suffix of the buffer from the cursor on; the empty
case is a read past the end, where JS `undefined & 0x7f` is 0 and
`undefined & 0x80` is 0, so the loop adds nothing and stops.  Returns the
accumulated value and the cursor after the last byte read. -/
def decodeRemainingLengthAux : List Nat → Nat → Nat → Nat → Nat × Nat
  | [], p, _, acc => (acc, p + 1)
  | byte :: rest, p, m, acc =>
    if byte &&& 0x80 ≠ 0 then
      decodeRemainingLengthAux rest (p + 1) (m * 128) (acc + (byte &&& 0x7f) * m)
    else
      (acc + (byte &&& 0x7f) * m, p + 1)

/-- Remaining-length decoding of `data` starting at cursor `p`
(src/index.js:112-119), returning `(value, cursor after the length field)`. -/
def decodeRemainingLength (data : List Nat) (p : Nat) : Nat × Nat :=
  decodeRemainingLengthAux (data.drop p) p 1 0

/-- The function `ntob` (src/index.js:56-58): a number to two big-endian
bytes, `[(n >> 8) & 0xff, n & 0xff]`. -/
def ntob (number : Nat) : List Nat :=
  [number >>> 8 &&& 0xff, number &&& 0xff]

/-- The function `bton` (src/index.js:60-62): `data[0] << 8 | data[1]`, with
a missing element read as `undefined`, which coerces to 0. -/
def bton (data : List Nat) : Nat :=
  data.getD 0 0 <<< 8 ||| data.getD 1 0

/-- The function `stob` (src/index.js:70-76): the `charCodeAt` code units of
a string. -/
def stob (string : String) : List Nat :=
  string.data.map Char.toNat

/-- The function `stolpb` (src/index.js:64-68): a 16-bit big-endian length
prefix followed by the string bytes. -/
def stolpb (string : String) : List Nat :=
  ntob string.length ++ stob string

/-- The expression `String.fromCharCode.apply(null, bytes)` as used by `_receivePacket`
(src/index.js:134,136). -/
def strFromBytes (bytes : List Nat) : String :=
  String.mk (bytes.map Char.ofNat)

/-- Sequential `bytes[p++] = v` writes of a list of values into a buffer,
returning the buffer and the final cursor.  A `Uint8Array` store keeps the
value modulo 256 and drops a write at an index past the end; `List.set` is
the identity past the end, matching. -/
def writeBytes : List Nat → Nat → List Nat → List Nat × Nat
  | buf, p, [] => (buf, p)
  | buf, p, b :: rest => writeBytes (buf.set p (b % 256)) (p + 1) rest

/-- The function `buildPacket(type, flags, header, payload)` (src/index.js:30-54).
Allocates `new Uint8Array(4 + remainLen)` — note: NOT `5 + remainLen` —
then writes the fixed-header byte `type << 4 | flags & 0x0f`, the encoded
remaining length, the variable header and the payload in order, and returns
`bytes.subarray(0, p)` (`List.take p`, which clamps at the buffer length
exactly as `subarray` does).  `header`/`payload` equal to `none` model the
JS arguments being `undefined`/`null`. -/
def buildPacket (type flags : Nat) (header payload : Option (List Nat)) : List Nat :=
  let hdr := header.getD []
  let pl := payload.getD []
  let remainLen := hdr.length + pl.length
  let buf0 := List.replicate (4 + remainLen) 0
  let s1 := writeBytes buf0 0 [type <<< 4 ||| (flags &&& 0x0f)]
  let s2 := writeBytes s1.1 s1.2 (encodeRemainingLength remainLen)
  let s3 := writeBytes s2.1 s2.2 hdr
  let s4 := writeBytes s3.1 s3.2 pl
  s4.1.take s4.2

/-- The kind of closure stored in `this._callbacks` (src/index.js:93).  Only
four closures are ever registered: the connect continuation at the reserved
identifier 0 (src/index.js:177), and the publish / subscribe / unsubscribe
continuations (src/index.js:237,267,291).  The publish, subscribe and
unsubscribe closures only forward to the user callback; they differ in what
they pass it, which no claim observes, so they are kept as tags. -/
inductive Callback where
  | connectCb
  | publishCb
  | subscribeCb (topics : List String)
  | unsubscribeCb
  deriving DecidableEq

/-- The argument shapes a stored callback is ever invoked with.  `connack`
is `callback(null, connackFlags, returnCode)` from the CONNACK branch
(src/index.js:126), where a byte read out of range is `undefined` (`none`);
`ack` is `callback(null, response)` from `_handleAck` (src/index.js:163);
`immediate` is the argument-less `callback()` from `_sendPacket`
(src/index.js:102).  The code never invokes a callback with a non-null
`err`, so no error argument is modelled. -/
inductive InvokeArgs where
  | connack (flags returnCode : Option Nat)
  | ack (response : List Nat)
  | immediate
  deriving DecidableEq

/-- Observable effects of one synchronous step: a `ws.send`, an
EventEmitter emission (`message`, `connect`, `error`, `close`), the firing
of a registered non-connect completion callback, or a thrown TypeError
(`crash`) from calling the `undefined` entry `this._callbacks[0]`
(src/index.js:125-126) when no connect is pending. -/
inductive Output where
  | send (data : List Nat)
  | message (topic payload : String)
  | connected (flags : Option Nat)
  | errored (msg : String)
  | closed
  | completed (packetId : Option Nat) (args : InvokeArgs)
  | crash
  deriving DecidableEq

/-- The mutable fields of `Client` the packet engine touches: the identifier
counter `this._nextId` (src/index.js:92) and the callback registry
`this._callbacks` (src/index.js:93). -/
structure ClientState where
  nextId : Nat
  callbacks : Nat → Option Callback

/-- The `Client` construction state (src/index.js:92-93): `_nextId = 1` and an
empty `_callbacks` registry. -/
def initialState : ClientState :=
  { nextId := 1, callbacks := fun _ => none }

/-- The `switch (returnCode)` of the connect continuation
(src/index.js:187-205), with `none` standing for JS `undefined` (which
falls to the `default` branch). -/
def connackError (returnCode : Option Nat) : String :=
  if returnCode = some 1 then "Unsupported protocol level"
  else if returnCode = some 2 then "Invalid client identifier"
  else if returnCode = some 3 then "Service unavailable"
  else if returnCode = some 4 then "Malformed username or password"
  else if returnCode = some 5 then "Client not authorized"
  else "Connection failed"

/-- Invoking a stored callback.  The connect continuation
(src/index.js:177-207) emits `connect(flags)` on return code 0 and
`error(new Error(...))` otherwise; invoked with `ack` or `immediate`
arguments its `returnCode` is `undefined`, hence the default error branch.
The publish / subscribe / unsubscribe closures fire the pending completion
(they forward to the user callback); `packetId` records which registry
entry fired. -/
def invokeCallback (packetId : Option Nat) (cb : Callback) (args : InvokeArgs) : List Output :=
  match cb with
  | Callback.connectCb =>
    match args with
    | InvokeArgs.connack flags rc =>
      if rc = some 0 then [Output.connected flags] else [Output.errored (connackError rc)]
    | InvokeArgs.ack _ => [Output.errored (connackError none)]
    | InvokeArgs.immediate => [Output.errored (connackError none)]
  | _ => [Output.completed packetId args]

/-- The method `Client._sendPacket(data, packetId, callback)` (src/index.js:96-105):
always `ws.send(data)`; then, when a callback is present, register it when
`packetId > -1` (the `-1` sentinel is `none` here) or invoke it at once.
Registering over an existing identifier overwrites (last wins). -/
def sendPacket (st : ClientState) (data : List Nat) (packetId : Option Nat)
    (cb : Option Callback) : ClientState × List Output :=
  match cb with
  | none => (st, [Output.send data])
  | some c =>
    match packetId with
    | some k =>
      ({ st with callbacks := fun i => if i = k then some c else st.callbacks i },
       [Output.send data])
    | none => (st, Output.send data :: invokeCallback none c InvokeArgs.immediate)

/-- The method `Client._handleAck(data)` (src/index.js:158-166): the packet identifier
is `bton(data.slice(0, 2))`; when a callback is registered there it is
invoked with `(null, data.slice(2))` and the entry deleted, otherwise the
acknowledgment is silently dropped. -/
def handleAck (st : ClientState) (data : List Nat) : ClientState × List Output :=
  let packetId := bton (data.take 2)
  match st.callbacks packetId with
  | some cb =>
    ({ st with callbacks := fun i => if i = packetId then none else st.callbacks i },
     invokeCallback (some packetId) cb (InvokeArgs.ack (data.drop 2)))
  | none => (st, [])

/-- The fixed-header fields and body slice extracted at the top of
`Client._receivePacket` (src/index.js:108-120). -/
structure ParsedPacket where
  type : Nat
  flags : Nat
  remainLen : Nat
  body : List Nat
  deriving DecidableEq

/-- Lines 108-120 of `_receivePacket`: `type = data[0] >> 4`,
`flags = data[0] & 0x0f`, the remaining length decoded from cursor 1, and
`data.slice(p, p + remainLen)` — `slice` clamps to the available bytes, as
`drop`/`take` do, so a short buffer yields a short body, never an error. -/
def parsePacket (data : List Nat) : ParsedPacket :=
  let b0 := data.getD 0 0
  let dec := decodeRemainingLength data 1
  { type := b0 >>> 4
    flags := b0 &&& 0x0f
    remainLen := dec.1
    body := (data.drop dec.2).take dec.1 }

/-- The method `Client._receivePacket(data)` (src/index.js:107-156), the dispatch on
the packet type.  CONNACK (2): call `this._callbacks[0]` with
`(null, body[0], body[1])` without deleting it — calling it when it is
`undefined` throws (`crash`).  PUBLISH (3): parse the length-prefixed
topic, a 16-bit identifier when QoS > 0 (the `-1` sentinel of the source is
never read when QoS = 0, so 0 stands in for it), and the payload slice
`data.slice(p, remainLen)`; emit `message`, then for QoS 1 send a PUBACK
with `ntob(packetId)` as variable header, and for QoS 2 send a PUBREC whose
variable header is the WHOLE body `data` (src/index.js:141).  PUBACK /
PUBCOMP / SUBACK / UNSUBACK (4,7,9,11) fall through to `_handleAck`.
PUBREC (5): send a PUBREL echoing the body.  PINGRESP (13) and every other
type: nothing. -/
def receivePacket (st : ClientState) (data : List Nat) : ClientState × List Output :=
  let pk := parsePacket data
  match pk.type with
  | 2 =>
    match st.callbacks 0 with
    | some cb =>
      (st, invokeCallback (some 0) cb (InvokeArgs.connack (pk.body.get? 0) (pk.body.get? 1)))
    | none => (st, [Output.crash])
  | 3 =>
    let qos := pk.flags >>> 1 &&& 0x3
    let n := bton pk.body
    let topic := strFromBytes ((pk.body.drop 2).take n)
    let afterTopic := 2 + n
    let packetId := if qos > 0 then bton ((pk.body.drop afterTopic).take 2) else 0
    let afterId := if qos > 0 then afterTopic + 2 else afterTopic
    let payload := strFromBytes ((pk.body.drop afterId).take (pk.remainLen - afterId))
    let acks :=
      if qos = 1 then [Output.send (buildPacket 4 0x00 (some (ntob packetId)) none)]
      else if qos = 2 then [Output.send (buildPacket 5 0x00 (some pk.body) none)]
      else []
    (st, Output.message topic payload :: acks)
  | 4 => handleAck st pk.body
  | 5 => (st, [Output.send (buildPacket 6 0x00 (some pk.body) none)])
  | 7 => handleAck st pk.body
  | 9 => handleAck st pk.body
  | 11 => handleAck st pk.body
  | _ => (st, [])

/-- The handler `ws.onclose` (src/index.js:83): emit `close` and nothing else — the
callback registry is not touched. -/
def onClose (st : ClientState) : ClientState × List Output :=
  (st, [Output.closed])

/-- JS truthiness of the optional numeric `options.keepAlive`
(`none` = absent/`undefined`; a number is truthy iff nonzero). -/
def jsTruthyNum : Option Nat → Bool
  | none => false
  | some n => n != 0

/-- The assignment `this._keepAlive = !!options.keepAlive || 60` (src/index.js:91) stores
the boolean `true` when `options.keepAlive` is truthy and the number 60
otherwise; `ntob` later coerces `true` to 1 (`(true >> 8) & 0xff = 0`,
`true & 0xff = 1`).  We store the coerced numeric value directly. -/
def clientKeepAlive (keepAlive : Option Nat) : Nat :=
  if jsTruthyNum keepAlive then 1 else 60

/-- The CONNECT variable header built by `Client._connect`
(src/index.js:169-173): length-prefixed protocol name, protocol level 4,
`this._clean | CONNECT_FLAG_WILL` (booleans coerce to 0/1), and the 16-bit
keep-alive. -/
def connectVariableHeader (clean : Bool) (keepAlive : Nat) : List Nat :=
  stolpb "MQTT" ++ [4, (if clean then 1 else 0) ||| 2] ++ ntob keepAlive

/-- The method `Client._connect()` (src/index.js:168-208): build and send the CONNECT
packet and register the connect continuation at the reserved identifier 0. -/
def connect (st : ClientState) (clean : Bool) (keepAlive : Nat)
    (clientId : String) : ClientState × List Output :=
  sendPacket st
    (buildPacket 1 0 (some (connectVariableHeader clean keepAlive)) (some (stolpb clientId)))
    (some 0) (some Callback.connectCb)

/-- The method `Client.publish(topic, message, options, callback)` (src/index.js:210-246)
after its argument normalisation: `dup`, `qos`, `remain` are the option
fields (defaults `false`, 0, `false`), `message` is `none` when absent.  An
identifier is allocated from `_nextId` only when QoS > 0; the continuation
closure is always passed to `_sendPacket`, so a QoS 0 publish completes
immediately. -/
def publish (st : ClientState) (topic : String) (message : Option String)
    (dup : Bool) (qos : Nat) (remain : Bool) : ClientState × List Output :=
  let flags := (if dup then 1 else 0) <<< 3 ||| (qos &&& 0x03) <<< 1 ||| (if remain then 1 else 0)
  let packetId := if qos > 0 then some st.nextId else none
  let st1 := if qos > 0 then { st with nextId := st.nextId + 1 } else st
  let header := stolpb topic ++ (match packetId with | some k => ntob k | none => [])
  let payload := message.map stob
  sendPacket st1 (buildPacket 3 flags (some header) payload) packetId (some Callback.publishCb)

/-- The method `Client.subscribe(topics, qos, callback)` (src/index.js:248-278) for a
list of plain string topics (the per-topic `{topic, qos}` object form adds
nothing the claims observe): allocate an identifier, build the payload as
repeated `stolpb(topic) ++ [qos & 0x03]` entries, send with flags `0x02`
and register the subscribe continuation. -/
def subscribe (st : ClientState) (topics : List String) (qos : Nat) :
    ClientState × List Output :=
  let flags := qos &&& 0x03
  let packetId := st.nextId
  let payload := topics.foldl (fun data topic => data ++ stolpb topic ++ [flags]) []
  sendPacket { st with nextId := st.nextId + 1 }
    (buildPacket 8 0x02 (some (ntob packetId)) (some payload))
    (some packetId) (some (Callback.subscribeCb topics))

/-- The method `Client.unsubscribe(topics, callback)` (src/index.js:280-300). -/
def unsubscribe (st : ClientState) (topics : List String) :
    ClientState × List Output :=
  let packetId := st.nextId
  let payload := topics.foldl (fun data topic => data ++ stolpb topic) []
  sendPacket { st with nextId := st.nextId + 1 }
    (buildPacket 10 0x02 (some (ntob packetId)) (some payload))
    (some packetId) (some Callback.unsubscribeCb)

/-- The method `Client.ping()` (src/index.js:302-305): fire-and-forget PINGREQ. -/
def ping (st : ClientState) : ClientState × List Output :=
  sendPacket st (buildPacket 12 0 none none) none none

/-- The method `Client.disconnect()` (src/index.js:307-310): fire-and-forget
DISCONNECT. -/
def disconnect (st : ClientState) : ClientState × List Output :=
  sendPacket st (buildPacket 14 0 none none) none none

/-! ### Properties of the remaining-length codec -/

lemma encodeRemainingLengthFuel_congr (fuel : Nat) :
    ∀ fuel' n, n ≤ fuel → n ≤ fuel' →
      encodeRemainingLengthFuel fuel n = encodeRemainingLengthFuel fuel' n := by
  induction fuel with
  | zero =>
    intro fuel' n hn _
    have hn0 : n = 0 := Nat.le_zero.mp hn
    subst hn0
    cases fuel' <;> simp [encodeRemainingLengthFuel]
  | succ fuel ih =>
    intro fuel' n hn hn'
    cases fuel' with
    | zero =>
      have hn0 : n = 0 := Nat.le_zero.mp hn'
      subst hn0
      simp [encodeRemainingLengthFuel]
    | succ fuel' =>
      simp only [encodeRemainingLengthFuel]
      split
      · next h =>
        have h7 : n >>> 7 = n / 128 := by simp [Nat.shiftRight_eq_div_pow]
        rw [h7] at h
        congr 1
        apply ih
        · rw [h7]; omega
        · rw [h7]; omega
      · rfl

lemma encodeRemainingLength_eq (n : Nat) :
    encodeRemainingLength n =
      if n >>> 7 > 0 then (n % 128 + 128) :: encodeRemainingLength (n >>> 7)
      else [n % 128] := by
  unfold encodeRemainingLength
  cases n with
  | zero => simp [encodeRemainingLengthFuel]
  | succ m =>
    simp only [encodeRemainingLengthFuel]
    split
    · next h =>
      have h7 : (m + 1) >>> 7 = (m + 1) / 128 := by simp [Nat.shiftRight_eq_div_pow]
      rw [h7] at h
      congr 1
      apply encodeRemainingLengthFuel_congr
      · rw [h7]; omega
      · exact Nat.le_refl _
    · rfl

lemma and127_of_lt : ∀ a, a < 128 → a &&& 127 = a := by decide
lemma and127_add : ∀ a, a < 128 → (a + 128) &&& 127 = a := by decide
lemma and128_of_lt : ∀ a, a < 128 → a &&& 128 = 0 := by decide
lemma and128_add : ∀ a, a < 128 → (a + 128) &&& 128 ≠ 0 := by decide

lemma decodeAux_encode (n : Nat) : ∀ (rest : List Nat) (p m acc : Nat),
    decodeRemainingLengthAux (encodeRemainingLength n ++ rest) p m acc
      = (acc + n * m, p + (encodeRemainingLength n).length) := by
  induction n using Nat.strong_induction_on with
  | _ n ih =>
    intro rest p m acc
    have hmod : n % 128 < 128 := Nat.mod_lt n (by norm_num)
    rw [encodeRemainingLength_eq n]
    have h7 : n >>> 7 = n / 128 := by simp [Nat.shiftRight_eq_div_pow]
    by_cases h : n >>> 7 > 0
    · have h128 : 128 ≤ n := by rw [h7] at h; omega
      rw [if_pos h]
      simp only [List.cons_append, decodeRemainingLengthAux, List.length_cons, List.append_eq]
      rw [if_pos (and128_add _ hmod), and127_add _ hmod]
      rw [ih (n >>> 7) (by rw [h7]; omega) rest (p + 1) (m * 128) (acc + n % 128 * m)]
      refine Prod.ext ?_ ?_
      · show acc + n % 128 * m + n >>> 7 * (m * 128) = acc + n * m
        rw [h7]
        conv_rhs => rw [← Nat.div_add_mod n 128]
        ring
      · show p + 1 + (encodeRemainingLength (n >>> 7)).length
            = p + ((encodeRemainingLength (n >>> 7)).length + 1)
        omega
    · have hlt : n < 128 := by rw [h7] at h; omega
      rw [if_neg h, Nat.mod_eq_of_lt hlt]
      simp only [List.cons_append, List.nil_append, decodeRemainingLengthAux,
        List.length_cons, List.length_nil]
      rw [if_neg (by simp [and128_of_lt _ hlt]), and127_of_lt _ hlt]

lemma decode_encode (n : Nat) :
    decodeRemainingLength (encodeRemainingLength n) 0
      = (n, (encodeRemainingLength n).length) := by
  have h := decodeAux_encode n [] 0 1 0
  simpa [decodeRemainingLength] using h

lemma encodeRemainingLength_length_eq (n : Nat) :
    (encodeRemainingLength n).length =
      if n < 128 then 1 else (encodeRemainingLength (n / 128)).length + 1 := by
  rw [encodeRemainingLength_eq n]
  have h7 : n >>> 7 = n / 128 := by simp [Nat.shiftRight_eq_div_pow]
  by_cases h : n < 128
  · rw [h7, if_neg (by omega), if_pos h]; rfl
  · rw [h7, if_pos (by omega), if_neg h]; simp

lemma encodeRemainingLength_length (n : Nat) (h : n < 2 ^ 28) :
    (encodeRemainingLength n).length =
      if n < 128 then 1 else if n < 16384 then 2 else if n < 2097152 then 3 else 4 := by
  rw [encodeRemainingLength_length_eq n]
  by_cases h1 : n < 128
  · simp [h1]
  rw [encodeRemainingLength_length_eq (n / 128)]
  by_cases h2 : n < 16384
  · have ha : n / 128 < 128 := by omega
    simp [h1, h2, ha]
  rw [encodeRemainingLength_length_eq (n / 128 / 128)]
  by_cases h3 : n < 2097152
  · have ha : ¬ n / 128 < 128 := by omega
    have hb : n / 128 / 128 < 128 := by omega
    simp [h1, h2, h3, ha, hb]
  · rw [encodeRemainingLength_length_eq (n / 128 / 128 / 128)]
    have ha : ¬ n / 128 < 128 := by omega
    have hb : ¬ n / 128 / 128 < 128 := by omega
    have hc : n / 128 / 128 / 128 < 128 := by
      have : n < 2 ^ 28 := h
      omega
    simp [h1, h2, h3, ha, hb, hc]

/-! ### Characterisation of `buildPacket` -/

lemma writeBytes_nil_buf (l : List Nat) : ∀ p, (writeBytes [] p l).1 = [] := by
  induction l with
  | nil => intro p; rfl
  | cons b rest ih => intro p; simpa [writeBytes] using ih (p + 1)

lemma writeBytes_snd (l : List Nat) : ∀ (buf : List Nat) (p : Nat),
    (writeBytes buf p l).2 = p + l.length := by
  induction l with
  | nil => intro buf p; simp [writeBytes]
  | cons b rest ih =>
    intro buf p
    simp only [writeBytes, List.length_cons, ih]
    omega

lemma writeBytes_append (l1 l2 : List Nat) : ∀ (buf : List Nat) (p : Nat),
    writeBytes buf p (l1 ++ l2)
      = writeBytes (writeBytes buf p l1).1 (writeBytes buf p l1).2 l2 := by
  induction l1 with
  | nil => intro buf p; rfl
  | cons b rest ih => intro buf p; simp [writeBytes, ih]

lemma writeBytes_cons_succ (l : List Nat) : ∀ (c : Nat) (buf : List Nat) (p : Nat),
    (writeBytes (c :: buf) (p + 1) l).1 = c :: (writeBytes buf p l).1 := by
  induction l with
  | nil => intro c buf p; rfl
  | cons b rest ih => intro c buf p; simp [writeBytes, List.set_cons_succ, ih]

lemma writeBytes_from_zero (l : List Nat) : ∀ (buf : List Nat),
    (writeBytes buf 0 l).1
      = (l.map (· % 256)).take buf.length ++ buf.drop l.length := by
  induction l with
  | nil => intro buf; simp [writeBytes]
  | cons b rest ih =>
    intro buf
    cases buf with
    | nil => simp [writeBytes, writeBytes_nil_buf]
    | cons c bt =>
      simp only [writeBytes, List.set_cons_zero]
      rw [writeBytes_cons_succ]
      simp [ih bt, List.take_succ_cons, List.drop_succ_cons]

/-- What `buildPacket` returns: the written byte stream (fixed-header byte,
remaining-length bytes, variable header, payload, each value modulo 256)
truncated to the `4 + remainLen` bytes that were actually allocated. -/
theorem buildPacket_eq (type flags : Nat) (header payload : Option (List Nat)) :
    buildPacket type flags header payload =
      (((type <<< 4 ||| (flags &&& 0x0f)) ::
          (encodeRemainingLength ((header.getD []).length + (payload.getD []).length) ++
            (header.getD [] ++ payload.getD []))).map (· % 256)).take
        (4 + ((header.getD []).length + (payload.getD []).length)) := by
  simp only [buildPacket]
  rw [← writeBytes_append, ← writeBytes_append, ← writeBytes_append]
  simp only [List.singleton_append]
  set rl := (header.getD []).length + (payload.getD []).length with hrl
  set C := (type <<< 4 ||| (flags &&& 0x0f)) ::
    (encodeRemainingLength rl ++ (header.getD [] ++ payload.getD [])) with hC
  rw [writeBytes_snd, writeBytes_from_zero]
  simp only [List.length_replicate, Nat.zero_add]
  by_cases hle : C.length ≤ 4 + rl
  · rw [List.take_of_length_le (show (C.map (· % 256)).length ≤ 4 + rl by simpa using hle)]
    exact List.take_left' (by simp)
  · have hb : (List.replicate (4 + rl) 0).drop C.length = [] :=
      List.drop_eq_nil_of_le (by simp; omega)
    rw [hb, List.append_nil]
    apply List.take_of_length_le
    simp only [List.length_take, List.length_map]
    omega

/-- For a remaining length below `2^21` the varint takes at most 3 bytes,
the allocation suffices, and the packet is exactly the written stream. -/
lemma buildPacket_small (type flags : Nat) (header payload : Option (List Nat))
    (h : (header.getD []).length + (payload.getD []).length < 2097152) :
    buildPacket type flags header payload =
      ((type <<< 4 ||| (flags &&& 0x0f)) ::
        (encodeRemainingLength ((header.getD []).length + (payload.getD []).length) ++
          (header.getD [] ++ payload.getD []))).map (· % 256) := by
  rw [buildPacket_eq]
  apply List.take_of_length_le
  have h3 : (encodeRemainingLength
      ((header.getD []).length + (payload.getD []).length)).length ≤ 3 := by
    rw [encodeRemainingLength_length _ (by omega)]
    repeat' split
    all_goals omega
  simp only [List.length_map, List.length_cons, List.length_append]
  omega

/-- C1: for every `n < 2^28`, decoding the remaining-length byte sequence
produced by encoding `n` yields `n` back (consuming exactly the encoded
bytes), and the encoding has the minimal length — 1 byte for `n < 128`,
2 for `n < 16384`, 3 for `n < 2097152`, and 4 otherwise. -/
theorem claim_C1 (n : Nat) (h : n < 2 ^ 28) :
    decodeRemainingLength (encodeRemainingLength n) 0
        = (n, (encodeRemainingLength n).length) ∧
      (encodeRemainingLength n).length =
        (if n < 128 then 1 else if n < 16384 then 2 else if n < 2097152 then 3 else 4) :=
  ⟨decode_encode n, encodeRemainingLength_length n h⟩

/-- Witness for C1 at the concrete value `n = 200` (a 2-byte encoding). -/
theorem claim_C1_witness :
    (200 : Nat) < 2 ^ 28 ∧
      (decodeRemainingLength (encodeRemainingLength 200) 0
          = (200, (encodeRemainingLength 200).length) ∧
        (encodeRemainingLength 200).length =
          (if (200 : Nat) < 128 then 1 else if (200 : Nat) < 16384 then 2
           else if (200 : Nat) < 2097152 then 3 else 4)) :=
  ⟨by decide, claim_C1 200 (by decide)⟩

/-- Any packet whose variable header needs a 4-byte remaining-length varint
loses its final byte: the returned buffer has length `4 + remainLen`, one
short of the `1 + 4 + remainLen` bytes written. -/
lemma buildPacket_length_4byte (type flags : Nat) (hdr : List Nat)
    (h1 : 2097152 ≤ hdr.length) (h2 : hdr.length < 2 ^ 28) :
    (buildPacket type flags (some hdr) none).length = 4 + hdr.length := by
  rw [buildPacket_eq]
  simp only [Option.getD_some, Option.getD_none, List.length_nil, Nat.add_zero]
  have hel : (encodeRemainingLength hdr.length).length = 4 := by
    rw [encodeRemainingLength_length hdr.length h2]
    have hn : ¬ hdr.length < 128 := by omega
    have hn2 : ¬ hdr.length < 16384 := by omega
    have hn3 : ¬ hdr.length < 2097152 := by omega
    simp [hn, hn2, hn3]
  simp only [List.length_take, List.length_map, List.length_cons, List.length_append,
    List.append_nil, hel]
  omega

/-- C2 is a code bug: `buildPacket` allocates `new Uint8Array(4 + remainLen)`
(src/index.js:32), one byte short of the worst case `1 + 4 + remainLen`.
For any packet whose remaining length needs a 4-byte varint
(`remainLen ≥ 2^21`) the final write lands out of range and is silently
dropped, so the returned buffer has length `4 + remainLen`, not the
`1 + varint_len + remainLen` the claim states — shown here at a PUBLISH
packet with a `2^21`-byte variable header. -/
theorem claim_C2_bug :
    (buildPacket 3 0 (some (List.replicate 2097152 7)) none).length = 4 + 2097152 ∧
      1 + (encodeRemainingLength 2097152).length + 2097152 = 5 + 2097152 ∧
      (4 + 2097152 : Nat) ≠ 5 + 2097152 := by
  have hel : (encodeRemainingLength 2097152).length = 4 := by
    rw [encodeRemainingLength_length 2097152 (by norm_num)]
    norm_num
  have h := buildPacket_length_4byte 3 0 (List.replicate 2097152 7)
    (by rw [List.length_replicate]) (by rw [List.length_replicate]; norm_num)
  rw [List.length_replicate] at h
  exact ⟨h, by rw [hel], by norm_num⟩

/-! ### 16-bit identifier round trip and ack-packet evaluation -/

lemma bton_ntob (k : Nat) (h : k < 65536) : bton (ntob k) = k := by
  simp only [bton, ntob, List.getD_cons_zero, List.getD_cons_succ]
  apply Nat.eq_of_testBit_eq
  intro i
  have h255 : (255 : Nat) = 2 ^ 8 - 1 := by norm_num
  simp only [Nat.testBit_lor, Nat.testBit_shiftLeft, Nat.testBit_land,
    Nat.testBit_shiftRight, h255, Nat.testBit_two_pow_sub_one]
  by_cases h8 : 8 ≤ i
  · by_cases h16 : i < 16
    · have hieq : 8 + (i - 8) = i := by omega
      rw [hieq]
      simp [h8, show i - 8 < 8 by omega, show ¬ i < 8 by omega]
    · have hpow : (65536 : Nat) ≤ 2 ^ i := by
        have : (65536 : Nat) = 2 ^ 16 := by norm_num
        rw [this]
        exact Nat.pow_le_pow_right (by norm_num) (by omega)
      have hk : Nat.testBit k i = false :=
        Nat.testBit_lt_two_pow (Nat.lt_of_lt_of_le h hpow)
      simp [hk, show ¬ i - 8 < 8 by omega, show ¬ i < 8 by omega]
  · simp [h8, show i < 8 by omega]

lemma ntob_fst_lt (k : Nat) : k >>> 8 &&& 0xff < 256 :=
  Nat.lt_succ_of_le Nat.and_le_right

lemma ntob_snd_lt (k : Nat) : k &&& 0xff < 256 :=
  Nat.lt_succ_of_le Nat.and_le_right

/-- All acknowledgment-shaped packets `[b0, 2, hi, lo]` decode their
remaining length to `(2, 2)`. -/
lemma decodeRemainingLength_ack (b0 hi lo : Nat) :
    decodeRemainingLength [b0, 2, hi, lo] 1 = (2, 2) := by
  have h1 : (2 : Nat) &&& 128 = 0 := by decide
  have h2 : (2 : Nat) &&& 127 = 2 := by decide
  simp [decodeRemainingLength, decodeRemainingLengthAux, h1, h2]

lemma parsePacket_ack (b0 hi lo : Nat) :
    parsePacket [b0, 2, hi, lo] = ⟨b0 >>> 4, b0 &&& 0x0f, 2, [hi, lo]⟩ := by
  simp [parsePacket, decodeRemainingLength_ack]

lemma handleAck_ntob (st : ClientState) (k : Nat) (hk : k < 65536) :
    handleAck st [k >>> 8 &&& 0xff, k &&& 0xff] =
      (match st.callbacks k with
       | some cb =>
         ({ st with callbacks := fun i => if i = k then none else st.callbacks i },
          invokeCallback (some k) cb (InvokeArgs.ack []))
       | none => (st, [])) := by
  unfold handleAck
  have h2 : [k >>> 8 &&& 0xff, k &&& 0xff].take 2 = ntob k := rfl
  rw [h2, bton_ntob k hk]
  rfl

lemma receivePacket_ack (st : ClientState) (b0 k : Nat) (hk : k < 65536)
    (ht : b0 >>> 4 = 4 ∨ b0 >>> 4 = 7 ∨ b0 >>> 4 = 9 ∨ b0 >>> 4 = 11) :
    receivePacket st (b0 :: 2 :: ntob k) =
      (match st.callbacks k with
       | some cb =>
         ({ st with callbacks := fun i => if i = k then none else st.callbacks i },
          invokeCallback (some k) cb (InvokeArgs.ack []))
       | none => (st, [])) := by
  have hdata : b0 :: 2 :: ntob k = [b0, 2, k >>> 8 &&& 0xff, k &&& 0xff] := rfl
  unfold receivePacket
  rw [hdata, parsePacket_ack]
  rcases ht with h | h | h | h <;>
    · rw [h]
      exact handleAck_ntob st k hk

/-- A packet built from a two-byte variable header and no payload is the
fixed-header byte, the length byte 2, and the two header bytes. -/
lemma buildPacket_idheader (type flags hi lo : Nat) (hhi : hi < 256) (hlo : lo < 256) :
    buildPacket type flags (some [hi, lo]) none =
      [(type <<< 4 ||| (flags &&& 0x0f)) % 256, 2, hi, lo] := by
  rw [buildPacket_small type flags (some [hi, lo]) none (by norm_num)]
  have henc : encodeRemainingLength 2 = [2] := rfl
  simp [henc, Nat.mod_eq_of_lt hhi, Nat.mod_eq_of_lt hlo]

/-- Receiving a PUBREC `[0x50, 2, hi(k), lo(k)]` sends a PUBREL echoing the
two identifier bytes and leaves the state untouched — in particular no
pending completion resolves. -/
lemma receivePacket_pubrec (st : ClientState) (k : Nat) :
    receivePacket st (0x50 :: 2 :: ntob k) = (st, [Output.send (0x60 :: 2 :: ntob k)]) := by
  have hdata : (0x50 : Nat) :: 2 :: ntob k = [0x50, 2, k >>> 8 &&& 0xff, k &&& 0xff] := rfl
  unfold receivePacket
  rw [hdata, parsePacket_ack, show (0x50 : Nat) >>> 4 = 5 from by decide]
  show (st, [Output.send (buildPacket 6 0x00 (some [k >>> 8 &&& 0xff, k &&& 0xff]) none)])
      = (st, [Output.send (0x60 :: 2 :: ntob k)])
  rw [buildPacket_idheader 6 0x00 _ _ (ntob_fst_lt k) (ntob_snd_lt k)]
  rfl

/-- C4: for a pending QoS 2 publish with identifier `k`, an inbound
PUBREC carrying `k` makes the engine send a PUBREL whose variable header is
the 2-byte identifier while the pending completion stays registered and
nothing resolves, and the completion resolves exactly on PUBCOMP with
identifier `k`: that packet fires the completion and removes the entry,
while a PUBCOMP with any other identifier leaves the entry pending and
fires no completion for `k`. -/
theorem claim_C4 (st : ClientState) (k : Nat) (hk : k < 65536)
    (hpend : st.callbacks k = some Callback.publishCb) :
    receivePacket st (0x50 :: 2 :: ntob k) = (st, [Output.send (0x60 :: 2 :: ntob k)]) ∧
      (receivePacket st (0x70 :: 2 :: ntob k)).1.callbacks k = none ∧
      (receivePacket st (0x70 :: 2 :: ntob k)).2
        = [Output.completed (some k) (InvokeArgs.ack [])] ∧
      ∀ j, j < 65536 → j ≠ k →
        (receivePacket st (0x70 :: 2 :: ntob j)).1.callbacks k
            = some Callback.publishCb ∧
          ∀ o ∈ (receivePacket st (0x70 :: 2 :: ntob j)).2,
            o ≠ Output.completed (some k) (InvokeArgs.ack []) := by
  refine ⟨receivePacket_pubrec st k, ?_, ?_, ?_⟩
  · rw [receivePacket_ack st 0x70 k hk (by decide), hpend]
    simp
  · rw [receivePacket_ack st 0x70 k hk (by decide), hpend]
    simp [invokeCallback]
  · intro j hj hne
    rw [receivePacket_ack st 0x70 j hj (by decide)]
    cases hcb : st.callbacks j with
    | none => exact ⟨hpend, by simp⟩
    | some cb =>
      refine ⟨by simp [Ne.symm hne, hpend], ?_⟩
      intro o ho
      cases cb <;> simp [invokeCallback, connackError] at ho <;> simp [ho, hne]

/-- Witness for C4: a state with one pending publish completion at
identifier 5, probed with PUBREC/PUBCOMP packets for identifiers 5 and 9. -/
theorem claim_C4_witness :
    ((5 : Nat) < 65536 ∧
        (⟨6, fun i => if i = 5 then some Callback.publishCb else none⟩ :
            ClientState).callbacks 5 = some Callback.publishCb) ∧
      (receivePacket
            (⟨6, fun i => if i = 5 then some Callback.publishCb else none⟩ : ClientState)
            (0x50 :: 2 :: ntob 5)
          = (⟨6, fun i => if i = 5 then some Callback.publishCb else none⟩,
             [Output.send (0x60 :: 2 :: ntob 5)]) ∧
        (receivePacket
            (⟨6, fun i => if i = 5 then some Callback.publishCb else none⟩ : ClientState)
            (0x70 :: 2 :: ntob 5)).1.callbacks 5 = none ∧
        (receivePacket
            (⟨6, fun i => if i = 5 then some Callback.publishCb else none⟩ : ClientState)
            (0x70 :: 2 :: ntob 5)).2
          = [Output.completed (some 5) (InvokeArgs.ack [])] ∧
        ∀ j, j < 65536 → j ≠ 5 →
          (receivePacket
              (⟨6, fun i => if i = 5 then some Callback.publishCb else none⟩ : ClientState)
              (0x70 :: 2 :: ntob j)).1.callbacks 5 = some Callback.publishCb ∧
            ∀ o ∈ (receivePacket
                (⟨6, fun i => if i = 5 then some Callback.publishCb else none⟩ : ClientState)
                (0x70 :: 2 :: ntob j)).2,
              o ≠ Output.completed (some 5) (InvokeArgs.ack [])) :=
  ⟨⟨by decide, by decide⟩, claim_C4 _ 5 (by decide) (by decide)⟩

/-- A publish with QoS > 0 allocates the identifier `_nextId`, bumps the
counter, sends the PUBLISH packet and registers the publish completion
under the allocated identifier. -/
lemma publish_qos_pos (st : ClientState) (topic : String) (message : Option String)
    (dup : Bool) (qos : Nat) (remain : Bool) (hq : 0 < qos) :
    publish st topic message dup qos remain =
      ({ nextId := st.nextId + 1,
         callbacks := fun i =>
           if i = st.nextId then some Callback.publishCb else st.callbacks i },
       [Output.send (buildPacket 3
         ((if dup then 1 else 0) <<< 3 ||| (qos &&& 0x03) <<< 1 ||| (if remain then 1 else 0))
         (some (stolpb topic ++ ntob st.nextId)) (message.map stob))]) := by
  simp only [publish, sendPacket, if_pos hq]

/-- C5: a QoS 1 publish allocates identifier `k = _nextId` and registers a
pending completion there; a PUBACK carrying `k` resolves it (fires the
completion and removes the entry), while a PUBACK carrying any other
identifier `j` leaves the completion pending and fires nothing for `k` —
matching is strictly by identifier. -/
theorem claim_C5 (st : ClientState) (hk : st.nextId < 65536) (j : Nat) (hj : j < 65536)
    (hne : j ≠ st.nextId) :
    ((publish st "a/b" (some "hi") false 1 false).1.callbacks st.nextId
        = some Callback.publishCb) ∧
      (receivePacket (publish st "a/b" (some "hi") false 1 false).1
          (0x40 :: 2 :: ntob st.nextId)).1.callbacks st.nextId = none ∧
      (receivePacket (publish st "a/b" (some "hi") false 1 false).1
          (0x40 :: 2 :: ntob st.nextId)).2
        = [Output.completed (some st.nextId) (InvokeArgs.ack [])] ∧
      (receivePacket (publish st "a/b" (some "hi") false 1 false).1
          (0x40 :: 2 :: ntob j)).1.callbacks st.nextId = some Callback.publishCb ∧
      ∀ o ∈ (receivePacket (publish st "a/b" (some "hi") false 1 false).1
          (0x40 :: 2 :: ntob j)).2,
        o ≠ Output.completed (some st.nextId) (InvokeArgs.ack []) := by
  rw [publish_qos_pos st "a/b" (some "hi") false 1 false (by norm_num)]
  set st1 : ClientState :=
    { nextId := st.nextId + 1,
      callbacks := fun i =>
        if i = st.nextId then some Callback.publishCb else st.callbacks i } with hst1
  have hreg : st1.callbacks st.nextId = some Callback.publishCb := by
    simp [hst1]
  refine ⟨hreg, ?_, ?_, ?_, ?_⟩
  · rw [receivePacket_ack st1 0x40 st.nextId hk (by decide), hreg]
    simp
  · rw [receivePacket_ack st1 0x40 st.nextId hk (by decide), hreg]
    simp [invokeCallback]
  · rw [receivePacket_ack st1 0x40 j hj (by decide)]
    have hj1 : st1.callbacks j = st.callbacks j := by
      simp [hst1, hne]
    rw [hj1]
    cases hcb : st.callbacks j with
    | none => exact hreg
    | some cb => simp [Ne.symm hne, hst1]
  · intro o ho
    rw [receivePacket_ack st1 0x40 j hj (by decide)] at ho
    have hj1 : st1.callbacks j = st.callbacks j := by
      simp [hst1, hne]
    rw [hj1] at ho
    cases hcb : st.callbacks j with
    | none => rw [hcb] at ho; simp at ho
    | some cb =>
      rw [hcb] at ho
      cases cb <;> simp [invokeCallback, connackError] at ho <;> simp [ho, hne]

/-- Witness for C5: the initial state (next identifier 1) with `j = 9`. -/
theorem claim_C5_witness :
    (initialState.nextId < 65536 ∧ (9 : Nat) < 65536 ∧ (9 : Nat) ≠ initialState.nextId) ∧
      (((publish initialState "a/b" (some "hi") false 1 false).1.callbacks
            initialState.nextId = some Callback.publishCb) ∧
        (receivePacket (publish initialState "a/b" (some "hi") false 1 false).1
            (0x40 :: 2 :: ntob initialState.nextId)).1.callbacks initialState.nextId
          = none ∧
        (receivePacket (publish initialState "a/b" (some "hi") false 1 false).1
            (0x40 :: 2 :: ntob initialState.nextId)).2
          = [Output.completed (some initialState.nextId) (InvokeArgs.ack [])] ∧
        (receivePacket (publish initialState "a/b" (some "hi") false 1 false).1
            (0x40 :: 2 :: ntob 9)).1.callbacks initialState.nextId
          = some Callback.publishCb ∧
        ∀ o ∈ (receivePacket (publish initialState "a/b" (some "hi") false 1 false).1
            (0x40 :: 2 :: ntob 9)).2,
          o ≠ Output.completed (some initialState.nextId) (InvokeArgs.ack [])) :=
  ⟨⟨by decide, by decide, by decide⟩, claim_C5 initialState (by decide) 9 (by decide) (by decide)⟩

/-- C6: while a connect handshake is pending (the connect continuation is
registered at identifier 0), a CONNACK with body `[flags, rc]` leaves the
state unchanged and emits: `connect(flags)` on return code 0 (the
session-present flags byte is body byte 0), the typed error messages for
return codes 1-5 — code 5 being "Client not authorized" — and the generic
"Connection failed" for every other return code. -/
theorem claim_C6 (st : ClientState) (hpend : st.callbacks 0 = some Callback.connectCb)
    (flags rc : Nat) :
    receivePacket st [0x20, 2, flags, rc] =
      (st,
        [if rc = 0 then Output.connected (some flags)
         else Output.errored
           (if rc = 1 then "Unsupported protocol level"
            else if rc = 2 then "Invalid client identifier"
            else if rc = 3 then "Service unavailable"
            else if rc = 4 then "Malformed username or password"
            else if rc = 5 then "Client not authorized"
            else "Connection failed")]) := by
  unfold receivePacket
  rw [parsePacket_ack, show (0x20 : Nat) >>> 4 = 2 from by decide, hpend]
  simp only [invokeCallback, connackError, List.get?_cons_zero, List.get?_cons_succ,
    Option.some.injEq, Prod.mk.injEq, true_and]
  split <;> rfl

/-- Witness for C6: a pending connect, probed at `flags = 1`, `rc = 5`. -/
theorem claim_C6_witness :
    ((⟨1, fun i => if i = 0 then some Callback.connectCb else none⟩ :
          ClientState).callbacks 0 = some Callback.connectCb) ∧
      receivePacket
          (⟨1, fun i => if i = 0 then some Callback.connectCb else none⟩ : ClientState)
          [0x20, 2, 1, 5] =
        (⟨1, fun i => if i = 0 then some Callback.connectCb else none⟩,
          [if (5 : Nat) = 0 then Output.connected (some 1)
           else Output.errored
             (if (5 : Nat) = 1 then "Unsupported protocol level"
              else if (5 : Nat) = 2 then "Invalid client identifier"
              else if (5 : Nat) = 3 then "Service unavailable"
              else if (5 : Nat) = 4 then "Malformed username or password"
              else if (5 : Nat) = 5 then "Client not authorized"
              else "Connection failed")]) :=
  ⟨by decide, claim_C6 _ (by decide) 1 5⟩

/-- C7 as written is false: with publish completions pending at identifiers
3 and 7, transport closure (`ws.onclose`, src/index.js:83) emits only the
`close` event; neither pending completion is failed with a TransportClosed
error — both entries are still registered afterwards, left unresolved. -/
theorem claim_C7_counterexample :
    (onClose ⟨8, fun i => if i = 3 ∨ i = 7 then some Callback.publishCb else none⟩).2
        = [Output.closed] ∧
      (onClose ⟨8, fun i =>
          if i = 3 ∨ i = 7 then some Callback.publishCb else none⟩).1.callbacks 3
        = some Callback.publishCb ∧
      (onClose ⟨8, fun i =>
          if i = 3 ∨ i = 7 then some Callback.publishCb else none⟩).1.callbacks 7
        = some Callback.publishCb :=
  ⟨rfl, by decide, by decide⟩

/-- C7 amended: when the transport signals closure the engine only emits
the `close` event; the callback registry is untouched, so every completion
that was pending stays registered and unresolved (the code has no
`cancelAll`). -/
theorem claim_C7_amended (st : ClientState) :
    (onClose st).2 = [Output.closed] ∧
      ∀ i, (onClose st).1.callbacks i = st.callbacks i :=
  ⟨rfl, fun _ => rfl⟩

/-- C8 as written is false: the decoder has no 4-byte limit — five
continuation bytes followed by `0x01` decode to `128^5 = 2^35` without any
error; a source that ends prematurely (a lone `0x85`) reads the missing
byte as 0 and returns normally; and a buffer declaring 5 body bytes while
carrying 2 is parsed with the truncated body — here it even resolves the
pending acknowledgment for identifier 3 instead of failing with
TruncatedPacket. -/
theorem claim_C8_counterexample :
    decodeRemainingLength [0x80, 0x80, 0x80, 0x80, 0x80, 0x01] 0 = (34359738368, 6) ∧
      decodeRemainingLength [0x85] 0 = (5, 2) ∧
      (receivePacket ⟨4, fun i => if i = 3 then some Callback.publishCb else none⟩
          [0x40, 5, 0, 3]).2 = [Output.completed (some 3) (InvokeArgs.ack [])] ∧
      (receivePacket ⟨4, fun i => if i = 3 then some Callback.publishCb else none⟩
          [0x40, 5, 0, 3]).1.callbacks 3 = none :=
  ⟨by decide, by decide, by decide, by decide⟩

/-- C8 amended: parsing never rejects its input.  Decoding the remaining
length is total: there is no 4-byte cap, and at a cursor at or past the end
of the source the next read behaves as byte 0, clearing the continuation
bit, so decoding stops with the value accumulated so far instead of failing;
and the body slice is truncated to the bytes actually available whenever the
declared remaining length exceeds them, rather than raising an error. -/
theorem claim_C8_amended (data : List Nat) (p0 : Nat) (hp : data.length ≤ p0) :
    decodeRemainingLength data p0 = (0, p0 + 1) ∧
      ∀ d : List Nat,
        (parsePacket d).body.length
          = min (parsePacket d).remainLen (d.length - (decodeRemainingLength d 1).2) := by
  constructor
  · unfold decodeRemainingLength
    rw [List.drop_eq_nil_of_le hp]
    rfl
  · intro d
    simp [parsePacket, List.length_take, List.length_drop]

/-- Witness for the amended C8 at the empty source and cursor 0. -/
theorem claim_C8_witness :
    ([] : List Nat).length ≤ 0 ∧
      (decodeRemainingLength [] 0 = (0, 1) ∧
        ∀ d : List Nat,
          (parsePacket d).body.length
            = min (parsePacket d).remainLen (d.length - (decodeRemainingLength d 1).2)) :=
  ⟨by decide, claim_C8_amended [] 0 (by decide)⟩

/-- C9 as written is false for the connect completion: the CONNACK branch
(src/index.js:122-127) invokes `this._callbacks[0]` without deleting it, so
delivering the same CONNACK twice invokes the connect completion twice —
here the `connect` event is emitted once per delivery. -/
theorem claim_C9_counterexample :
    (receivePacket ⟨1, fun i => if i = 0 then some Callback.connectCb else none⟩
          [0x20, 2, 0, 0]).2 = [Output.connected (some 0)] ∧
      (receivePacket ⟨1, fun i => if i = 0 then some Callback.connectCb else none⟩
          [0x20, 2, 0, 0]).1.callbacks 0 = some Callback.connectCb ∧
      (receivePacket
          (receivePacket ⟨1, fun i => if i = 0 then some Callback.connectCb else none⟩
            [0x20, 2, 0, 0]).1
          [0x20, 2, 0, 0]).2 = [Output.connected (some 0)] :=
  ⟨by decide, by decide, by decide⟩

/-- C9 amended: completions resolved through `_handleAck` (QoS > 0 publish,
subscribe, unsubscribe) fire at most once — resolving removes the registry
entry, so delivering the same acknowledgment again finds no callback and
produces nothing; the connect completion at identifier 0, however, is not
removed on CONNACK, so it stays registered and every further CONNACK
invokes it again. -/
theorem claim_C9_amended (st : ClientState) (k t : Nat) (hk : k < 65536) (cb : Callback)
    (hcb : st.callbacks k = some cb) (ht : t = 4 ∨ t = 7 ∨ t = 9 ∨ t = 11) :
    (receivePacket st (t <<< 4 :: 2 :: ntob k)).2
        = invokeCallback (some k) cb (InvokeArgs.ack []) ∧
      (receivePacket st (t <<< 4 :: 2 :: ntob k)).1.callbacks k = none ∧
      (receivePacket (receivePacket st (t <<< 4 :: 2 :: ntob k)).1
          (t <<< 4 :: 2 :: ntob k)).2 = [] ∧
      ∀ st' : ClientState, st'.callbacks 0 = some Callback.connectCb →
        ∀ flags rc : Nat,
          (receivePacket st' [0x20, 2, flags, rc]).1.callbacks 0
            = some Callback.connectCb := by
  have hconn : ∀ st' : ClientState, st'.callbacks 0 = some Callback.connectCb →
      ∀ flags rc : Nat,
        (receivePacket st' [0x20, 2, flags, rc]).1.callbacks 0
          = some Callback.connectCb := by
    intro st' h flags rc
    unfold receivePacket
    rw [parsePacket_ack, show (0x20 : Nat) >>> 4 = 2 from by decide, h]
    exact h
  rcases ht with h | h | h | h <;> subst h <;>
    · rw [receivePacket_ack st _ k hk (by decide), hcb]
      refine ⟨rfl, by simp, ?_, hconn⟩
      rw [receivePacket_ack _ _ k hk (by decide)]
      simp

/-- Witness for the amended C9: a pending publish completion at identifier
5 acknowledged twice by PUBACK (type 4). -/
theorem claim_C9_witness :
    ((5 : Nat) < 65536 ∧
        (⟨6, fun i => if i = 5 then some Callback.publishCb else none⟩ :
            ClientState).callbacks 5 = some Callback.publishCb ∧
        ((4 : Nat) = 4 ∨ (4 : Nat) = 7 ∨ (4 : Nat) = 9 ∨ (4 : Nat) = 11)) ∧
      ((receivePacket
            (⟨6, fun i => if i = 5 then some Callback.publishCb else none⟩ : ClientState)
            (4 <<< 4 :: 2 :: ntob 5)).2
          = invokeCallback (some 5) Callback.publishCb (InvokeArgs.ack []) ∧
        (receivePacket
            (⟨6, fun i => if i = 5 then some Callback.publishCb else none⟩ : ClientState)
            (4 <<< 4 :: 2 :: ntob 5)).1.callbacks 5 = none ∧
        (receivePacket
            (receivePacket
              (⟨6, fun i => if i = 5 then some Callback.publishCb else none⟩ : ClientState)
              (4 <<< 4 :: 2 :: ntob 5)).1
            (4 <<< 4 :: 2 :: ntob 5)).2 = [] ∧
        ∀ st' : ClientState, st'.callbacks 0 = some Callback.connectCb →
          ∀ flags rc : Nat,
            (receivePacket st' [0x20, 2, flags, rc]).1.callbacks 0
              = some Callback.connectCb) :=
  ⟨⟨by decide, by decide, by decide⟩,
    claim_C9_amended _ 5 4 (by decide) Callback.publishCb (by decide) (by decide)⟩

/-- C3 is a code bug in its QoS 2 half.  For the inbound QoS 2 PUBLISH
`[0x34, 7, 0,2,'a','b', 0,5, 'x']` (topic "ab", identifier 5, payload "x")
the engine emits the message and then sends a PUBREC whose variable header
is the ENTIRE PUBLISH body — `buildPacket(PUBREC, 0, data)` at
src/index.js:141 passes the whole body where the QoS 1 branch at line 139
correctly passes `ntob(packetId)` — so the PUBREC is
`[0x50, 7, 0,2,97,98,0,5,120]`, not the 2-byte-identifier form
`[0x50, 2, 0, 5]` the claim requires.  The QoS 1 half of the claim does
hold: the same body with QoS 1 flags produces PUBACK `[0x40, 2, 0, 5]`. -/
theorem claim_C3_bug :
    (receivePacket initialState [0x34, 7, 0, 2, 0x61, 0x62, 0, 5, 0x78]).2
        = [Output.message "ab" "x",
           Output.send [0x50, 7, 0, 2, 0x61, 0x62, 0, 5, 0x78]] ∧
      ([0x50, 7, 0, 2, 0x61, 0x62, 0, 5, 0x78] : List Nat) ≠ 0x50 :: 2 :: ntob 5 ∧
      (receivePacket initialState [0x32, 7, 0, 2, 0x61, 0x62, 0, 5, 0x78]).2
        = [Output.message "ab" "x", Output.send [0x40, 2, 0, 5]] :=
  ⟨by decide, by decide, by decide⟩

/-- C10: the CONNECT keep-alive field never carries the configured number:
`this._keepAlive = !!options.keepAlive || 60` (src/index.js:91) stores
`true` (coerced to 1 by `ntob`) for every truthy `options.keepAlive` and 60
for an absent or falsy one, so the 16-bit big-endian keep-alive bytes of
the CONNECT variable header are `[0, 1]` when `options.keepAlive` is truthy
and `[0, 60]` otherwise. -/
theorem claim_C10 (clean : Bool) (keepAlive : Option Nat) :
    (connectVariableHeader clean (clientKeepAlive keepAlive)).length = 10 ∧
      (connectVariableHeader clean (clientKeepAlive keepAlive)).drop 8
        = (if jsTruthyNum keepAlive then [0, 1] else [0, 60]) ∧
      bton ((connectVariableHeader clean (clientKeepAlive keepAlive)).drop 8)
        = (if jsTruthyNum keepAlive then 1 else 60) := by
  cases hT : jsTruthyNum keepAlive <;> cases clean <;>
    · unfold clientKeepAlive connectVariableHeader
      rw [hT]
      decide

end MqttWs
